import Mathlib

/-!
Shallow embedding of the answer-evaluation and spaced-repetition progress
engine of the bloom-english-desktop repository, together with proofs about
the claims C1 to C10.

Conventions used throughout the embedding:
- JavaScript strings are Lean `String`; character-level operations work on
  `String.data` (a `List Char`); only ASCII text is exercised by the claims.
- JavaScript `number` values that carry scores or similarity percentages are
  modelled as `Rat` (exact rational arithmetic); `Math.round x` is modelled
  as `Int.floor (x + 1/2)`, which is the JavaScript rounding rule
  (half-up, towards positive infinity).
- Timestamps (milliseconds since the epoch, `Date.now()`) are `Int` and are
  passed explicitly to every function that reads the clock.
- A JavaScript object used as a string-keyed map is an association list
  `List (String × T)`: lookup takes the first binding, update replaces the
  existing binding in place or appends a new one, which is exactly the
  insertion-order semantics of object spread updates.
- `undefined` optional fields are `Option`; the optional
  `dismissedReviewAlerts` array is modelled as a plain list, with the absent
  value identified with the empty list (the code only reads it through
  `prev.dismissedReviewAlerts || []`).
-/

/-! ## Generic string helpers (src/lib/pronunciationEvaluator.ts and
src/lib/translationChecker.ts share the same normalization logic) -/

/-- The punctuation characters removed by the regex
`/[.,!?;:'\x22()-]/g` in `normalizeText` and `normalizeForComparison`.
`Char.ofNat 39` is the apostrophe character. -/
def punctChars : List Char := ['.', ',', '!', '?', ';', ':', Char.ofNat 39, '"', '(', ')', '-']

/-- Whitespace characters matched by the JavaScript regex class `\s`
(restricted to the ASCII whitespace actually reachable in this app). -/
def isWsChar (c : Char) : Bool := c = ' ' || c = '\t' || c = '\n' || c = '\r'

/-- One pass of collapsing runs of spaces to a single space
(the `replace(/\s+/g, " ")` step, after whitespace has been mapped to
spaces). The boolean records whether the previous kept character was a
space. -/
def squeezeSpacesAux : Bool → List Char → List Char
  | _, [] => []
  | prevSpace, c :: cs =>
    if c = ' ' then
      if prevSpace then squeezeSpacesAux true cs
      else ' ' :: squeezeSpacesAux true cs
    else c :: squeezeSpacesAux false cs

/-- Drop leading and trailing spaces (the `trim()` step; at this point all
whitespace has already been collapsed to plain spaces). -/
def trimSpaces (cs : List Char) : List Char :=
  ((cs.dropWhile (· = ' ')).reverse.dropWhile (· = ' ')).reverse

/-- `normalizeForComparison` from src/lib/translationChecker.ts, which is the
same operation as `normalizeText` in src/lib/pronunciationEvaluator.ts:
lowercase, strip punctuation, collapse whitespace runs to one space, trim. -/
def normalizeForComparison (s : String) : String :=
  String.mk (trimSpaces (squeezeSpacesAux false
    (((s.data.map Char.toLower).filter (fun c => !punctChars.contains c)).map
      (fun c => if isWsChar c then ' ' else c))))

/-- First-occurrence deduplication with an accumulator of already seen
elements; `dedupFirstAux [] l` models the element sequence of the
JavaScript `new Set(l)` (insertion order, first occurrence kept). -/
def dedupFirstAux (seen : List String) : List String → List String
  | [] => []
  | x :: xs => if x ∈ seen then dedupFirstAux seen xs else x :: dedupFirstAux (x :: seen) xs

/-- The element list of the JavaScript `new Set(l)`. -/
def dedupFirst (l : List String) : List String := dedupFirstAux [] l

/-- The splitting loop of JavaScript `s.split(" ")`: cut at every single
space, keeping empty pieces; `cur` holds the current piece reversed. -/
def splitOnSpaceAux (cur : List Char) : List Char → List String
  | [] => [String.mk cur.reverse]
  | c :: cs =>
    if c = ' ' then String.mk cur.reverse :: splitOnSpaceAux [] cs
    else splitOnSpaceAux (c :: cur) cs

/-- JavaScript `s.split(" ")` (the empty string yields [""]). -/
def splitWords (s : String) : List String := splitOnSpaceAux [] s.data

/-- JavaScript `s.startsWith(p)` (computed on the character lists). -/
def strStartsWith (s p : String) : Bool := p.data.isPrefixOf s.data

/-- JavaScript rounding `Math.round`: floor of the argument plus one half
(ties round towards positive infinity). -/
def jsRound (q : ℚ) : ℤ := Int.floor (q + 1/2)

/-! ## Pronunciation evaluator (src/lib/pronunciationEvaluator.ts) -/

/-- The Soundex coding table of `soundexCode` (the `codes` object):
B,F,P,V map to 1; C,G,J,K,Q,S,X,Z to 2; D,T to 3; L to 4; M,N to 5;
R to 6; every other letter to no code. -/
def soundexDigit (c : Char) : Option Char :=
  if c = 'B' ∨ c = 'F' ∨ c = 'P' ∨ c = 'V' then some '1'
  else if c = 'C' ∨ c = 'G' ∨ c = 'J' ∨ c = 'K' ∨ c = 'Q' ∨ c = 'S' ∨ c = 'X' ∨ c = 'Z' then some '2'
  else if c = 'D' ∨ c = 'T' then some '3'
  else if c = 'L' then some '4'
  else if c = 'M' ∨ c = 'N' then some '5'
  else if c = 'R' then some '6'
  else none

/-- The letter-processing loop of `soundexCode`: while fewer than four
characters have been emitted, append the code of the current letter when it
is coded and differs from `prev`; `prev` is updated only by coded letters,
so uncoded letters (vowels, H, W) leave it unchanged. -/
def soundexLoop : List Char → List Char → Option Char → List Char
  | [], acc, _ => acc
  | c :: cs, acc, prev =>
    if acc.length < 4 then
      match soundexDigit c with
      | some d => soundexLoop cs (if prev = some d then acc else acc ++ [d]) (some d)
      | none => soundexLoop cs acc prev
    else acc

/-- Uppercase and keep only the letters A-Z
(the `word.toUpperCase().replace(/[^A-Z]/g, "")` step). -/
def toUpperAlpha (s : String) : List Char :=
  (s.data.map Char.toUpper).filter (fun c => 'A' ≤ c && c ≤ 'Z')

/-- `soundexCode` from src/lib/pronunciationEvaluator.ts: empty for
empty or non-alphabetic input; otherwise the first letter followed by the
codes collected by `soundexLoop`, padded with zeros and cut to four
characters. -/
def soundexCode (word : String) : String :=
  match toUpperAlpha word with
  | [] => ""
  | c :: rest =>
    String.mk (((soundexLoop rest [c] (soundexDigit c)) ++ ['0', '0', '0']).take 4)

/-- Modelled from the spec: the reference Soundex that the specification
describes, in which vowels, H and W act as resets — an uncoded letter clears
the previous-code register, so a repeated consonant code separated by a
vowel is emitted again.  The only difference from `soundexLoop` is the
`none` branch. -/
def soundexLoopSpecReset : List Char → List Char → Option Char → List Char
  | [], acc, _ => acc
  | c :: cs, acc, prev =>
    if acc.length < 4 then
      match soundexDigit c with
      | some d => soundexLoopSpecReset cs (if prev = some d then acc else acc ++ [d]) (some d)
      | none => soundexLoopSpecReset cs acc none
    else acc

/-- Modelled from the spec: `soundexCode` as the specification words it,
using the vowel-reset loop `soundexLoopSpecReset`. -/
def soundexCodeSpecReset (word : String) : String :=
  match toUpperAlpha word with
  | [] => ""
  | c :: rest =>
    String.mk (((soundexLoopSpecReset rest [c] (soundexDigit c)) ++ ['0', '0', '0']).take 4)

/-- The matching loop of `calculateWordMatchScore`: walk the recognized
words; a word found in the current set is counted and one occurrence is
deleted from the set (`expectedSet.delete(word)`). -/
def wordMatchLoop : List String → List String → Nat
  | [], _ => 0
  | w :: ws, set => if w ∈ set then wordMatchLoop ws (set.erase w) + 1 else wordMatchLoop ws set

/-- `calculateWordMatchScore` from src/lib/pronunciationEvaluator.ts.
Returns the pair (score, matchedWords).  The expected words are put in a
JavaScript `Set` — modelled by `dedupFirst`, which deduplicates — and each
recognized word found there is counted once while deleting it. -/
def calculateWordMatchScore (recognizedWords expectedWords : List String) : ℚ × Nat :=
  if expectedWords.length = 0 then (100, 0)
  else if recognizedWords.length = 0 then (0, 0)
  else
    let matchedWords := wordMatchLoop recognizedWords (dedupFirst expectedWords)
    (((matchedWords : ℚ) / (expectedWords.length : ℚ)) * 100, matchedWords)

/-! ## Progress data model (src/lib/vocabulary/progress.ts) -/

/-- One slot of a review schedule: `{date, completed}`. -/
structure ReviewSlot where
  date : Int
  completed : Bool
  deriving DecidableEq, Repr

/-- `ReviewSchedule`: the `oneDay` and `oneWeek` review slots. -/
structure ReviewSchedule where
  oneDay : ReviewSlot
  oneWeek : ReviewSlot
  deriving DecidableEq, Repr

/-- The review-type tag used by the schedule and by dismissal keys. -/
inductive ReviewType where
  | oneDay
  | oneWeek
  deriving DecidableEq, Repr

/-- The string form of a review type, used to build dismissal keys. -/
def ReviewType.str : ReviewType → String
  | .oneDay => "oneDay"
  | .oneWeek => "oneWeek"

/-- Select a slot of a schedule by review type (the computed member access
`schedule[reviewType]`). -/
def ReviewSchedule.slot (s : ReviewSchedule) : ReviewType → ReviewSlot
  | .oneDay => s.oneDay
  | .oneWeek => s.oneWeek

/-- `QuizAttempt`: `{date, score, correct, total}`. -/
structure QuizAttempt where
  date : Int
  score : Int
  correct : Nat
  total : Nat
  deriving DecidableEq, Repr

/-- One recorded answer inside a resumable session snapshot. -/
structure PositionResult where
  itemId : String
  userAnswer : String
  isCorrect : Bool
  deriving DecidableEq, Repr

/-- `ActiveReviewPosition`: resumable review-session snapshot. -/
structure ActiveReviewPosition where
  reviewType : ReviewType
  currentIndex : Nat
  shuffledItemIds : List String
  results : List PositionResult
  startedAt : Int
  deriving DecidableEq, Repr

/-- `ActiveQuizPosition`: resumable quiz-session snapshot. -/
structure ActiveQuizPosition where
  currentIndex : Nat
  shuffledItemIds : List String
  results : List PositionResult
  startedAt : Int
  deriving DecidableEq, Repr

/-- `TopicProgress`: per-topic progress record. -/
structure TopicProgress where
  topicId : String
  quizAttempts : List QuizAttempt
  bestScore : Option Int
  completedAt : Option Int
  reviewSchedule : Option ReviewSchedule
  activeReview : Option ActiveReviewPosition
  activeQuiz : Option ActiveQuizPosition
  deriving DecidableEq, Repr

/-- `LearningProgress`: the top-level aggregate.  `topics` is the
string-keyed object `Record<string, TopicProgress>` as an insertion-ordered
association list; the optional `dismissedReviewAlerts` array is a list
(absent modelled as empty, matching the reads through `|| []`). -/
structure LearningProgress where
  version : Nat
  topics : List (String × TopicProgress)
  lastUpdated : Int
  dismissedReviewAlerts : List String
  deriving DecidableEq, Repr

/-- Property lookup `progress.topics[topicId]` on the object modelled as an
association list (first binding wins; keys are unique in every state a
JavaScript object can represent). -/
def lookupTopic : List (String × TopicProgress) → String → Option TopicProgress
  | [], _ => none
  | p :: rest, k => if p.1 = k then some p.2 else lookupTopic rest k

/-- The object spread update `{...topics, [topicId]: v}`: replace the
binding in place when the key exists, otherwise append it at the end
(JavaScript objects preserve insertion order and keep an updated key at its
original position). -/
def setTopic : List (String × TopicProgress) → String → TopicProgress →
    List (String × TopicProgress)
  | [], k, v => [(k, v)]
  | p :: rest, k, v => if p.1 = k then (k, v) :: rest else p :: setTopic rest k v

/-- `ONE_DAY_MS` from src/lib/vocabulary/progress.ts. -/
def ONE_DAY_MS : Int := 24 * 60 * 60 * 1000

/-- JavaScript `Date` local-calendar model: the local clock is UTC shifted
by a fixed offset `tz` in milliseconds (daylight-saving transitions are not
modelled).  `localDay tz t` is the index of the local calendar day
containing timestamp `t`. -/
def localDay (tz t : Int) : Int := (t + tz).fdiv ONE_DAY_MS

/-- The timestamp of local midnight (00:00:00) opening local day `n`. -/
def startOfLocalDay (tz n : Int) : Int := n * ONE_DAY_MS - tz

/-- `getStartOfNextDay`: `setDate(getDate() + 1)` followed by
`setHours(0,0,0,0)` — local midnight of the next calendar day. -/
def getStartOfNextDay (tz t : Int) : Int := startOfLocalDay tz (localDay tz t + 1)

/-- `getStartOfDayAfter`: local midnight of the day `days` calendar days
after `t`. -/
def getStartOfDayAfter (tz t days : Int) : Int := startOfLocalDay tz (localDay tz t + days)

/-- `createReviewSchedule(completedAt)` from src/lib/vocabulary/progress.ts. -/
def createReviewSchedule (tz completedAt : Int) : ReviewSchedule :=
  { oneDay := { date := getStartOfNextDay tz completedAt, completed := false }
    oneWeek := { date := getStartOfDayAfter tz completedAt 7, completed := false } }

/-- The record returned by `isReviewDue`. -/
structure DueStatus where
  oneDay : Bool
  oneWeek : Bool
  anyDue : Bool
  deriving DecidableEq, Repr

/-- `isReviewDue(schedule)` from src/lib/vocabulary/progress.ts, with
`Date.now()` passed explicitly as `now`. -/
def isReviewDue (schedule : Option ReviewSchedule) (now : Int) : DueStatus :=
  match schedule with
  | none => ⟨false, false, false⟩
  | some s =>
    let oneDayDue := !s.oneDay.completed && decide (s.oneDay.date ≤ now)
    let oneWeekDue := !s.oneWeek.completed && decide (s.oneWeek.date ≤ now)
    ⟨oneDayDue, oneWeekDue, oneDayDue || oneWeekDue⟩

/-- `createInitialTopicProgress(topicId)` from src/lib/vocabulary/progress.ts. -/
def createInitialTopicProgress (topicId : String) : TopicProgress :=
  { topicId := topicId, quizAttempts := [], bestScore := none, completedAt := none
    reviewSchedule := none, activeReview := none, activeQuiz := none }

/-! ## Progress store mutations (the useProgress hook, src/unnamed/part_002).
Each mutation is the pure state-update function passed to `setProgress`,
with `Date.now()` and the calendar offset passed explicitly. -/

/-- `recordQuizAttempt(topicId, {correct, total})`: append the attempt,
fold `bestScore` with max, keep an existing `completedAt`, and create the
review schedule exactly on the first-ever completion. -/
def recordQuizAttempt (prev : LearningProgress) (topicId : String) (correct total : Nat)
    (now tz : Int) : LearningProgress :=
  let percentage := jsRound ((correct : ℚ) / (total : ℚ) * 100)
  let existing := (lookupTopic prev.topics topicId).getD (createInitialTopicProgress topicId)
  let isFirstCompletion := existing.completedAt.isNone
  let newAttempt : QuizAttempt := { date := now, score := percentage, correct := correct, total := total }
  let newTopicProgress : TopicProgress :=
    { existing with
      quizAttempts := existing.quizAttempts ++ [newAttempt]
      bestScore := some (match existing.bestScore with
        | none => percentage
        | some b => max b percentage)
      completedAt := some (existing.completedAt.getD now)
      reviewSchedule := if isFirstCompletion then some (createReviewSchedule tz now)
        else existing.reviewSchedule }
  { prev with topics := setTopic prev.topics topicId newTopicProgress, lastUpdated := now }

/-- `markReviewCompleted(topicId, reviewType)`: a missing topic entry or a
null schedule returns the previous aggregate unchanged; otherwise the named
slot is marked completed. -/
def markReviewCompleted (prev : LearningProgress) (topicId : String) (reviewType : ReviewType)
    (now : Int) : LearningProgress :=
  match lookupTopic prev.topics topicId with
  | none => prev
  | some tp =>
    match tp.reviewSchedule with
    | none => prev
    | some sched =>
      let newReviewSchedule := match reviewType with
        | .oneDay => { sched with oneDay := { sched.oneDay with completed := true } }
        | .oneWeek => { sched with oneWeek := { sched.oneWeek with completed := true } }
      { prev with
        topics := setTopic prev.topics topicId { tp with reviewSchedule := some newReviewSchedule }
        lastUpdated := now }

/-- An entry of the `getDueReviews` result. -/
structure DueReview where
  topicId : String
  reviewType : ReviewType
  deriving DecidableEq, Repr

/-- `getDueReviews()`: scan the topics in object order pushing at most one
entry per topic — `oneDay` when that slot is due, otherwise `oneWeek` when
that slot is due. -/
def getDueReviews (p : LearningProgress) (now : Int) : List DueReview :=
  p.topics.foldl (fun acc kv =>
    let st := isReviewDue kv.2.reviewSchedule now
    if st.oneDay then acc ++ [{ topicId := kv.2.topicId, reviewType := .oneDay }]
    else if st.oneWeek then acc ++ [{ topicId := kv.2.topicId, reviewType := .oneWeek }]
    else acc) []

/-- `scheduleReview(topicId)`: store a brand-new schedule computed from
`now` (lazily creating the topic record) and drop every dismissal key that
starts with `topicId + "-"`. -/
def scheduleReview (prev : LearningProgress) (topicId : String) (now tz : Int) :
    LearningProgress :=
  let existing := (lookupTopic prev.topics topicId).getD (createInitialTopicProgress topicId)
  let dismissedAlerts := prev.dismissedReviewAlerts.filter
    (fun key => !(strStartsWith key (topicId ++ "-")))
  { prev with
    topics := setTopic prev.topics topicId
      { existing with reviewSchedule := some (createReviewSchedule tz now) }
    dismissedReviewAlerts := dismissedAlerts
    lastUpdated := now }

/-- `dismissReviewAlert(topicId, reviewType)`: record the key
`topicId + "-" + reviewType` unless already present. -/
def dismissReviewAlert (prev : LearningProgress) (topicId : String) (reviewType : ReviewType)
    (now : Int) : LearningProgress :=
  let key := topicId ++ "-" ++ reviewType.str
  if prev.dismissedReviewAlerts.contains key then prev
  else { prev with dismissedReviewAlerts := prev.dismissedReviewAlerts ++ [key], lastUpdated := now }

/-! ## Topic quiz session (the useTopicQuiz hook, src/unnamed/part_003).
The hook state is the triple (shuffledItems, currentIndex, results); the
derived values and the three actions are the pure functions below.
Randomness is an explicit argument: `rand i` stands for the value
`Math.floor(Math.random() * (i + 1))` drawn at loop counter `i`, reduced
modulo `i + 1` to stay in range.  The optional `initialState` restore
branch is not modelled; the claims quantify over freshly constructed
sessions. -/

namespace TopicQuiz

/-- One entry of the `results` array of useTopicQuiz. -/
structure QuizResult (α : Type) where
  item : α
  userAnswer : String
  isCorrect : Bool
  deriving DecidableEq, Repr

/-- The hook state. -/
structure QuizState (α : Type) where
  shuffledItems : List α
  currentIndex : Nat
  results : List (QuizResult α)
  deriving DecidableEq, Repr

/-- The Fisher-Yates loop of `shuffleArray`, counting `i` downwards;
the loop body swaps positions `i` and `rand i % (i + 1)`. -/
def fyAux {α : Type} (rand : Nat → Nat) : Array α → Nat → Array α
  | a, 0 => a
  | a, i + 1 =>
    let j := rand (i + 1) % (i + 2)
    if h : i + 1 < a.size ∧ j < a.size then fyAux rand (a.swap ⟨i + 1, h.1⟩ ⟨j, h.2⟩) i
    else a

/-- `shuffleArray(array)` from src/unnamed/part_003. -/
def shuffleArray {α : Type} (l : List α) (rand : Nat → Nat) : List α :=
  (fyAux rand l.toArray (l.length - 1)).toList

/-- The initial hook state for a fresh session: a shuffled copy of the
items, index 0, no results. -/
def initQuiz {α : Type} (items : List α) (rand : Nat → Nat) : QuizState α :=
  { shuffledItems := shuffleArray items rand, currentIndex := 0, results := [] }

/-- `currentItem`: `shuffledItems[currentIndex] ?? null`. -/
def currentItem {α : Type} (s : QuizState α) : Option α :=
  s.shuffledItems.get? s.currentIndex

/-- `isComplete`: `currentIndex >= shuffledItems.length`. -/
def isComplete {α : Type} (s : QuizState α) : Bool :=
  decide (s.shuffledItems.length ≤ s.currentIndex)

/-- `score`: `{correct: results.filter(r => r.isCorrect).length,
total: shuffledItems.length}` — recomputed from the current state. -/
def score {α : Type} (s : QuizState α) : Nat × Nat :=
  ((s.results.filter (fun r => r.isCorrect)).length, s.shuffledItems.length)

/-- `recordAnswer(userAnswer, isCorrect)`: a no-op without a current item,
otherwise append the result. -/
def recordAnswer {α : Type} (s : QuizState α) (userAnswer : String) (isCorrect : Bool) :
    QuizState α :=
  match currentItem s with
  | none => s
  | some it => { s with results := s.results ++ [{ item := it, userAnswer := userAnswer, isCorrect := isCorrect }] }

/-- `nextQuestion()`: advance the index. -/
def nextQuestion {α : Type} (s : QuizState α) : QuizState α :=
  { s with currentIndex := s.currentIndex + 1 }

/-- `resetQuiz()`: reshuffle the items, reset the index and clear the
results. -/
def resetQuiz {α : Type} (items : List α) (rand : Nat → Nat) (_s : QuizState α) : QuizState α :=
  { shuffledItems := shuffleArray items rand, currentIndex := 0, results := [] }

/-- Run one quiz round per answer: record the answer, then advance. -/
def runQuiz {α : Type} (s : QuizState α) : List (String × Bool) → QuizState α
  | [] => s
  | (ua, ic) :: rest => runQuiz (nextQuestion (recordAnswer s ua ic)) rest

end TopicQuiz

/-! ## Translation checker (src/lib/translationChecker.ts) -/

/-- `GrammarError` from src/lib/translationChecker.ts. -/
structure GrammarError where
  message : String
  context : String
  suggestion : String
  deriving DecidableEq, Repr

/-- `TranslationCheckResult`.  `score` is a JavaScript number (0 to 100, or
-1 for unavailable) modelled as a rational. -/
structure TranslationCheckResult where
  grammarCorrect : Bool
  grammarErrors : List GrammarError
  isCorrect : Bool
  score : ℚ
  feedback : String
  suggestions : List String
  referenceTranslation : String
  deriving DecidableEq, Repr

/-- A quote character of the regex class `['"]`. -/
def isQuoteChar (c : Char) : Bool := c = Char.ofNat 39 || c = '"'

/-- The successive matches of the global regex that finds a quote, one or
more non-quote characters, then a quote, returning the inner text of each
match (the code strips the quote characters from the match afterwards).
Scanning resumes after each match, or at the next character when no match
starts at the current one.  The fuel argument — one unit per examined
character — makes the scan structurally recursive; `quotedTerms` supplies
enough fuel for the whole string. -/
def quotedMatchesAux : Nat → List Char → List (List Char)
  | 0, _ => []
  | _ + 1, [] => []
  | fuel + 1, c :: cs =>
    if isQuoteChar c then
      let inner := cs.takeWhile (fun d => !isQuoteChar d)
      match cs.drop inner.length with
      | d :: rest =>
        if isQuoteChar d ∧ inner ≠ [] then inner :: quotedMatchesAux fuel rest
        else quotedMatchesAux fuel cs
      | [] => quotedMatchesAux fuel cs
    else quotedMatchesAux fuel cs

/-- The quoted terms of a suggestion string, quotes stripped. -/
def quotedTerms (s : String) : List String :=
  (quotedMatchesAux s.data.length s.data).map String.mk

/-- JavaScript `hay.includes(needle)` on strings (empty needle included). -/
def containsSub (hay needle : List Char) : Bool :=
  if needle.isEmpty then true
  else (List.range (hay.length + 1)).any (fun i => needle.isPrefixOf (hay.drop i))

/-- String-level wrapper of `containsSub`. -/
def strIncludes (s sub : String) : Bool := containsSub s.data sub.data

/-- `filterContradictorySuggestions(userTranslation, suggestions)`: drop a
suggestion when one of its quoted terms, lowercased, already occurs in the
normalized user translation; suggestions without quoted terms are kept. -/
def filterContradictorySuggestions (userTranslation : String) (suggestions : List String) :
    List String :=
  let normalizedUser := normalizeForComparison userTranslation
  suggestions.filter (fun suggestion =>
    let terms := quotedTerms suggestion
    if terms.isEmpty then true
    else !(terms.any (fun term => strIncludes normalizedUser term.toLower)))

/-- `filterContradictoryGrammarErrors(userTranslation, errors)`: drop an
error when a quoted term of its lowercased suggestion occurs in the
normalized user translation, or when the whole normalized suggestion (more
than 3 characters long) occurs there. -/
def filterContradictoryGrammarErrors (userTranslation : String) (errors : List GrammarError) :
    List GrammarError :=
  let normalizedUser := normalizeForComparison userTranslation
  errors.filter (fun e =>
    let terms := quotedTerms e.suggestion.toLower
    if terms.any (fun term => strIncludes normalizedUser term) then false
    else
      let cleanSuggestion := normalizeForComparison e.suggestion
      if cleanSuggestion.length > 3 && strIncludes normalizedUser cleanSuggestion then false
      else true)

/-- `calculateSimilarity(text1, text2)`: word-overlap count over the two
deduplicated word lists, divided by the size of their union, rounded to a
percentage.  The `length === 0` guards are kept from the source even though
`split` never returns an empty array. -/
def calculateSimilarity (text1 text2 : String) : ℤ :=
  let words1 := splitWords (normalizeForComparison text1)
  let words2 := splitWords (normalizeForComparison text2)
  if words1.length = 0 ∨ words2.length = 0 then 0
  else
    let set1 := dedupFirst words1
    let set2 := dedupFirst words2
    let matchCount := (set1.filter (fun w => set2.contains w)).length
    let union := (dedupFirst (words1 ++ words2)).length
    jsRound ((matchCount : ℚ) / (union : ℚ) * 100)

/-- The first phase of `correctScoreIfSimilar`: filter contradictory
suggestions and grammar errors, recompute `grammarCorrect`, and boost the
score by 5 points per removed item (capped at 100), with the upbeat
feedback when everything was filtered away. -/
def preSimilarityResult (userTranslation : String) (result : TranslationCheckResult) :
    TranslationCheckResult :=
  let filteredSuggestions := filterContradictorySuggestions userTranslation result.suggestions
  let filteredGrammarErrors := filterContradictoryGrammarErrors userTranslation result.grammarErrors
  let corrected0 : TranslationCheckResult :=
    { result with
      suggestions := filteredSuggestions
      grammarErrors := filteredGrammarErrors
      grammarCorrect := filteredGrammarErrors.isEmpty }
  let removedSuggestions := result.suggestions.length - filteredSuggestions.length
  let removedErrors := result.grammarErrors.length - filteredGrammarErrors.length
  if removedSuggestions > 0 ∨ removedErrors > 0 then
    { corrected0 with
      score := min 100 (corrected0.score + ((removedSuggestions + removedErrors : Nat) : ℚ) * 5)
      feedback := if filteredSuggestions.isEmpty && filteredGrammarErrors.isEmpty
        then "Good translation!" else corrected0.feedback }
  else corrected0

/-- `correctScoreIfSimilar(userTranslation, result)`: after the filtering
phase, boost the score from the string-overlap similarity with the
reference translation — but only when the filtered score is below the
90 (resp. 80) threshold. -/
def correctScoreIfSimilar (userTranslation : String) (result : TranslationCheckResult) :
    TranslationCheckResult :=
  let correctedResult := preSimilarityResult userTranslation result
  if result.referenceTranslation = "" then correctedResult
  else
    let similarity := calculateSimilarity userTranslation result.referenceTranslation
    if similarity ≥ 90 ∧ correctedResult.score < 90 then
      { correctedResult with
        score := max correctedResult.score 95
        isCorrect := true
        feedback := "Excellent! Your translation matches the reference very closely."
        suggestions := []
        grammarErrors := []
        grammarCorrect := true }
    else if similarity ≥ 80 ∧ correctedResult.score < 80 then
      { correctedResult with
        score := max correctedResult.score 85
        isCorrect := true
        feedback := if correctedResult.feedback = "" then "Good translation with minor differences."
          else correctedResult.feedback
        suggestions := if correctedResult.suggestions.length > 2 then correctedResult.suggestions.take 1
          else correctedResult.suggestions }
    else correctedResult

/-- The outcome of the configured provider call inside `checkTranslation`:
either a thrown error (network failure, non-OK HTTP status, missing API
key, exhausted retries) or a parsed `TranslationCheckResult`. -/
inductive ProviderOutcome where
  | failure
  | success (result : TranslationCheckResult)

/-- The result built by the `catch` branch of `parseJSONResponse` when the
provider response holds no parsable judgment. -/
def parseFailureResult : TranslationCheckResult :=
  { grammarCorrect := true, grammarErrors := [], isCorrect := true, score := -1
    feedback := "Could not parse evaluation result", suggestions := [], referenceTranslation := "" }

/-- The result built by the `catch` branch of `checkTranslation`. -/
def totalFailureResult (provider : String) : TranslationCheckResult :=
  { grammarCorrect := true, grammarErrors := [], isCorrect := true, score := -1
    feedback := "Translation check unavailable (" ++ provider ++ ")", suggestions := []
    referenceTranslation := "" }

/-- `checkTranslation`: run the provider, post-process a successful result
with `correctScoreIfSimilar`, and degrade a thrown error to the
non-blocking fallback. -/
def checkTranslation (userTranslation : String) (outcome : ProviderOutcome) (provider : String) :
    TranslationCheckResult :=
  match outcome with
  | .failure => totalFailureResult provider
  | .success r => correctScoreIfSimilar userTranslation r

/-- The entry that a single topic contributes to `getDueReviews`: `oneDay`
when that slot is due, otherwise `oneWeek` when that slot is due, otherwise
nothing.  Used to characterize the scan loop as a `filterMap`. -/
def dueEntry? (now : Int) (kv : String × TopicProgress) : Option DueReview :=
  let st := isReviewDue kv.2.reviewSchedule now
  if st.oneDay then some { topicId := kv.2.topicId, reviewType := .oneDay }
  else if st.oneWeek then some { topicId := kv.2.topicId, reviewType := .oneWeek }
  else none

/-! ## Concrete states used by counterexamples and witnesses -/

/-- A topic whose oneDay and oneWeek review slots are both uncompleted and
both overdue at time 10. -/
def bothDueTopic : TopicProgress :=
  { topicId := "t", quizAttempts := [], bestScore := none, completedAt := none
    reviewSchedule := some { oneDay := { date := 0, completed := false }
                             oneWeek := { date := 0, completed := false } }
    activeReview := none, activeQuiz := none }

/-- An aggregate holding only `bothDueTopic`. -/
def bothDueProgress : LearningProgress :=
  { version := 1, topics := [("t", bothDueTopic)], lastUpdated := 0, dismissedReviewAlerts := [] }

/-- An aggregate with two topics, "a" and "a-b", where topic "a-b" has a
dismissed oneDay alert (its key "a-b-oneDay" starts with the prefix "a-"
of topic "a"). -/
def prefixCollisionProgress : LearningProgress :=
  { version := 1
    topics := [("a", createInitialTopicProgress "a"), ("a-b", createInitialTopicProgress "a-b")]
    lastUpdated := 0
    dismissedReviewAlerts := ["a-b-oneDay"] }

/-- An external-evaluator result scoring 92 whose reference translation is
identical to the user translation "hello world". -/
def highScoreResult : TranslationCheckResult :=
  { grammarCorrect := true, grammarErrors := [], isCorrect := false, score := 92
    feedback := "fb", suggestions := [], referenceTranslation := "hello world" }

/-- An external-evaluator result scoring 40 whose reference translation is
identical to the user translation "hello world". -/
def lowScoreResult : TranslationCheckResult :=
  { grammarCorrect := true, grammarErrors := [], isCorrect := false, score := 40
    feedback := "fb", suggestions := [], referenceTranslation := "hello world" }

/-! ## Helper lemmas -/

theorem lookupTopic_nil (k : String) : lookupTopic [] k = none := rfl

theorem lookupTopic_setTopic_self (ts : List (String × TopicProgress)) (k : String)
    (v : TopicProgress) : lookupTopic (setTopic ts k v) k = some v := by
  induction ts with
  | nil => simp [setTopic, lookupTopic]
  | cons a rest ih =>
    by_cases hk : a.1 = k
    · simp [setTopic, lookupTopic, hk]
    · simp [setTopic, lookupTopic, hk, ih]

theorem lookupTopic_setTopic_other (ts : List (String × TopicProgress)) (k u : String)
    (v : TopicProgress) (hne : u ≠ k) :
    lookupTopic (setTopic ts k v) u = lookupTopic ts u := by
  induction ts with
  | nil => simp [setTopic, lookupTopic, Ne.symm hne]
  | cons a rest ih =>
    by_cases hk : a.1 = k
    · by_cases ha : a.1 = u
      · exact absurd (hk.symm.trans ha |>.symm) hne
      · simp [setTopic, lookupTopic, hk, ha, Ne.symm hne]
    · simp [setTopic, lookupTopic, hk, ih]

theorem soundexLoop_length_ge (cs : List Char) :
    ∀ (acc : List Char) (prev : Option Char), acc.length ≤ (soundexLoop cs acc prev).length := by
  induction cs with
  | nil => intro acc prev; exact Nat.le_refl _
  | cons c cs ih =>
    intro acc prev
    unfold soundexLoop
    by_cases h : acc.length < 4
    · rw [if_pos h]
      cases hd : soundexDigit c with
      | some d =>
        by_cases hp : prev = some d
        · simpa [hp] using ih acc (some d)
        · have := ih (acc ++ [d]) (some d)
          have hlen : acc.length ≤ (acc ++ [d]).length := by simp
          simp only [if_neg hp]
          exact Nat.le_trans hlen this
      | none => exact ih acc prev
    · rw [if_neg h]

theorem dedupFirstAux_spec (xs : List String) :
    ∀ seen : List String,
      (∀ y ∈ dedupFirstAux seen xs, y ∉ seen) ∧ (dedupFirstAux seen xs).Nodup := by
  induction xs with
  | nil => intro seen; exact ⟨fun y hy => absurd hy (List.not_mem_nil y), List.nodup_nil⟩
  | cons x xs ih =>
    intro seen
    by_cases hx : x ∈ seen
    · simpa [dedupFirstAux, hx] using ih seen
    · have ihx := ih (x :: seen)
      constructor
      · intro y hy
        simp only [dedupFirstAux, if_neg hx, List.mem_cons] at hy
        rcases hy with rfl | hy
        · exact hx
        · exact fun hs => ihx.1 y hy (List.mem_cons_of_mem x hs)
      · simp only [dedupFirstAux, if_neg hx]
        refine List.nodup_cons.mpr ⟨fun hmem => ?_, ihx.2⟩
        exact ihx.1 x hmem (List.mem_cons_self x seen)

theorem dedupFirst_nodup (l : List String) : (dedupFirst l).Nodup :=
  (dedupFirstAux_spec l []).2

theorem wordMatchLoop_eq_filter (ws : List String) :
    ∀ st : List String, st.Nodup →
      wordMatchLoop ws st = (st.filter (fun x => decide (x ∈ ws))).length := by
  induction ws with
  | nil =>
    intro st _
    simp [wordMatchLoop]
  | cons w ws ih =>
    intro st hnd
    by_cases hw : w ∈ st
    · have hperm : List.Perm st (w :: st.erase w) := List.perm_cons_erase hw
      have hlen : (st.filter (fun x => decide (x ∈ w :: ws))).length
          = ((w :: st.erase w).filter (fun x => decide (x ∈ w :: ws))).length :=
        (hperm.filter _).length_eq
      have hcongr : (st.erase w).filter (fun x => decide (x ∈ w :: ws))
          = (st.erase w).filter (fun x => decide (x ∈ ws)) := by
        apply List.filter_congr
        intro x hx
        have hxw : x ≠ w := ((List.Nodup.mem_erase_iff hnd).mp hx).1
        simp [List.mem_cons, hxw]
      have hstep : wordMatchLoop (w :: ws) st = wordMatchLoop ws (st.erase w) + 1 := by
        simp [wordMatchLoop, hw]
      have hd : decide (w ∈ w :: ws) = true := by simp
      rw [hstep, ih (st.erase w) (hnd.erase w), hlen, List.filter_cons, if_pos hd,
        List.length_cons, hcongr]
    · have hstep : wordMatchLoop (w :: ws) st = wordMatchLoop ws st := by
        simp [wordMatchLoop, hw]
      have hcongr : st.filter (fun x => decide (x ∈ w :: ws))
          = st.filter (fun x => decide (x ∈ ws)) := by
        apply List.filter_congr
        intro x hx
        have hxw : x ≠ w := fun he => hw (he ▸ hx)
        simp [List.mem_cons, hxw]
      rw [hstep, ih st hnd, hcongr]

theorem fyAux_size {α : Type} (rand : Nat → Nat) :
    ∀ (i : Nat) (a : Array α), (TopicQuiz.fyAux rand a i).size = a.size := by
  intro i
  induction i with
  | zero => intro a; rfl
  | succ i ih =>
    intro a
    unfold TopicQuiz.fyAux
    by_cases h : i + 1 < a.size ∧ rand (i + 1) % (i + 2) < a.size
    · rw [dif_pos h]
      rw [ih]
      exact Array.size_swap a _ _
    · rw [dif_neg h]

theorem shuffleArray_length {α : Type} (l : List α) (rand : Nat → Nat) :
    (TopicQuiz.shuffleArray l rand).length = l.length := by
  unfold TopicQuiz.shuffleArray
  rw [Array.length_toList, fyAux_size]

theorem runQuiz_go {α : Type} (l : List α) (answers : List (String × Bool)) :
    ∀ (i : Nat) (res : List (TopicQuiz.QuizResult α)), i + answers.length ≤ l.length →
      (TopicQuiz.runQuiz ⟨l, i, res⟩ answers).shuffledItems = l ∧
      (TopicQuiz.runQuiz ⟨l, i, res⟩ answers).currentIndex = i + answers.length ∧
      (TopicQuiz.runQuiz ⟨l, i, res⟩ answers).results.map (fun r => (r.userAnswer, r.isCorrect))
        = res.map (fun r => (r.userAnswer, r.isCorrect)) ++ answers := by
  induction answers with
  | nil =>
    intro i res _
    exact ⟨rfl, by simp [TopicQuiz.runQuiz], by simp [TopicQuiz.runQuiz]⟩
  | cons a rest ih =>
    intro i res h
    obtain ⟨ua, ic⟩ := a
    have hi : i < l.length := by
      simp only [List.length_cons] at h
      omega
    have hget : l[i]? = some (l.get ⟨i, hi⟩) := by
      simp [List.getElem?_eq_getElem hi]
    have hrec : TopicQuiz.recordAnswer (⟨l, i, res⟩ : TopicQuiz.QuizState α) ua ic
        = ⟨l, i, res ++ [⟨l.get ⟨i, hi⟩, ua, ic⟩]⟩ := by
      simp [TopicQuiz.recordAnswer, TopicQuiz.currentItem, hget]
    have hstep : TopicQuiz.runQuiz (⟨l, i, res⟩ : TopicQuiz.QuizState α) ((ua, ic) :: rest)
        = TopicQuiz.runQuiz ⟨l, i + 1, res ++ [⟨l.get ⟨i, hi⟩, ua, ic⟩]⟩ rest := by
      simp [TopicQuiz.runQuiz, hrec, TopicQuiz.nextQuestion]
    have hbound : (i + 1) + rest.length ≤ l.length := by
      simp only [List.length_cons] at h
      omega
    obtain ⟨e1, e2, e3⟩ := ih (i + 1) (res ++ [⟨l.get ⟨i, hi⟩, ua, ic⟩]) hbound
    refine ⟨by rw [hstep]; exact e1, by rw [hstep, e2]; simp; omega, ?_⟩
    rw [hstep, e3]
    simp

theorem getDueReviews_foldl (now : Int) (ts : List (String × TopicProgress)) :
    ∀ acc : List DueReview,
      ts.foldl (fun acc kv =>
        let st := isReviewDue kv.2.reviewSchedule now
        if st.oneDay then acc ++ [{ topicId := kv.2.topicId, reviewType := .oneDay }]
        else if st.oneWeek then acc ++ [{ topicId := kv.2.topicId, reviewType := .oneWeek }]
        else acc) acc
      = acc ++ ts.filterMap (dueEntry? now) := by
  induction ts with
  | nil => intro acc; simp
  | cons kv rest ih =>
    intro acc
    simp only [List.foldl_cons, List.filterMap_cons]
    by_cases h1 : (isReviewDue kv.2.reviewSchedule now).oneDay = true
    · rw [show dueEntry? now kv = some { topicId := kv.2.topicId, reviewType := .oneDay } by
        simp [dueEntry?, h1]]
      simp only [if_pos h1]
      rw [ih]
      simp
    · by_cases h2 : (isReviewDue kv.2.reviewSchedule now).oneWeek = true
      · rw [show dueEntry? now kv = some { topicId := kv.2.topicId, reviewType := .oneWeek } by
          simp [dueEntry?, h1, h2]]
        simp only [if_neg h1, if_pos h2]
        rw [ih]
        simp
      · rw [show dueEntry? now kv = none by simp [dueEntry?, h1, h2]]
        simp only [if_neg h1, if_neg h2]
        exact ih acc

theorem jsRound_bounds (c t : Nat) (ht : 0 < t) (hc : c ≤ t) :
    0 ≤ jsRound ((c : ℚ) / (t : ℚ) * 100) ∧ jsRound ((c : ℚ) / (t : ℚ) * 100) ≤ 100 := by
  have htq : (0 : ℚ) < (t : ℚ) := by exact_mod_cast ht
  have hq0 : (0 : ℚ) ≤ (c : ℚ) / (t : ℚ) * 100 := by positivity
  have hq1 : (c : ℚ) / (t : ℚ) * 100 ≤ 100 := by
    have hle : (c : ℚ) / (t : ℚ) ≤ 1 := by
      rw [div_le_one htq]
      exact_mod_cast hc
    nlinarith
  constructor
  · apply Int.le_floor.mpr
    push_cast
    linarith
  · have : jsRound ((c : ℚ) / (t : ℚ) * 100) < 101 := by
      apply Int.floor_lt.mpr
      push_cast
      linarith
    omega

/-! ## Claim theorems -/

/-- C1 (counterexample): the word-match score is not computed over a
multiset — the expected words go through a deduplicating `Set` — so when
the recognized list is exactly the expected list ["a", "a"], which repeats
a word, the score is 50, not 100 as the claim states. -/
theorem calculateWordMatchScore_duplicate_counterexample :
    (calculateWordMatchScore ["a", "a"] ["a", "a"]).1 = 50 ∧
    (calculateWordMatchScore ["a", "a"] ["a", "a"]).2 = 1 ∧ ((50 : ℚ) ≠ 100) := by
  refine ⟨?_, ?_, by norm_num⟩
  · norm_num [calculateWordMatchScore, wordMatchLoop, dedupFirst, dedupFirstAux]
  · norm_num [calculateWordMatchScore, wordMatchLoop, dedupFirst, dedupFirstAux]

/-- C1 (amended): the word-match score deduplicates the expected words into
a set, so each distinct expected word is matched at most once: with
non-empty inputs the matched count is the number of distinct expected words
occurring anywhere in the recognized list, and the score is 100 times that
count divided by the full (duplicate-counting) length of the expected list;
the empty-list conventions are as the original claim states. -/
theorem calculateWordMatchScore_set_semantics (r e : List String) :
    (e.length = 0 → calculateWordMatchScore r e = (100, 0)) ∧
    (e.length ≠ 0 → r.length = 0 → calculateWordMatchScore r e = (0, 0)) ∧
    (e.length ≠ 0 → r.length ≠ 0 →
      calculateWordMatchScore r e =
        ((((dedupFirst e).filter (fun x => decide (x ∈ r))).length : ℚ) / (e.length : ℚ) * 100,
          ((dedupFirst e).filter (fun x => decide (x ∈ r))).length)) := by
  refine ⟨fun h => by simp [calculateWordMatchScore, h],
    fun h1 h2 => by simp [calculateWordMatchScore, h1, h2],
    fun h1 h2 => ?_⟩
  simp only [calculateWordMatchScore, if_neg h1, if_neg h2]
  rw [wordMatchLoop_eq_filter r (dedupFirst e) (dedupFirst_nodup e)]

/-- C1 (witness): the amended characterization at recognized = ["a","b"],
expected = ["b","b","c"]. -/
theorem calculateWordMatchScore_set_semantics_witness :
    (["b", "b", "c"] : List String).length ≠ 0 ∧ (["a", "b"] : List String).length ≠ 0 ∧
    calculateWordMatchScore ["a", "b"] ["b", "b", "c"] =
      ((((dedupFirst ["b", "b", "c"]).filter
          (fun x => decide (x ∈ (["a", "b"] : List String)))).length : ℚ)
        / ((["b", "b", "c"] : List String).length : ℚ) * 100,
        ((dedupFirst ["b", "b", "c"]).filter
          (fun x => decide (x ∈ (["a", "b"] : List String)))).length) :=
  ⟨by decide, by decide,
    (calculateWordMatchScore_set_semantics ["a", "b"] ["b", "b", "c"]).2.2 (by decide) (by decide)⟩

/-- C4 (counterexample): in the code an uncoded letter does not reset the
previous-code register, so the two Bs of "BOB" collapse and the result is
"B000", while the reference algorithm of the claim (vowels reset, so the
second B is emitted) yields "B100". -/
theorem soundexCode_vowel_reset_counterexample :
    soundexCode "BOB" = "B000" ∧ soundexCodeSpecReset "BOB" = "B100" ∧
    soundexCode "BOB" ≠ soundexCodeSpecReset "BOB" := by
  exact ⟨by decide, by decide, by decide⟩

/-- C4 (amended): `soundexCode` uses the stated coding table and
adjacent-duplicate suppression, but vowels/H/W do not reset the
previous-code register (a consonant with the same code as the last coded
letter is suppressed even across vowels); the output-shape claims hold:
every result is empty or exactly 4 characters, and "Robert" and "Rupert"
both map to "R163". -/
theorem soundexCode_spec :
    (∀ w : String, soundexCode w = "" ∨ (soundexCode w).length = 4) ∧
    soundexCode "Robert" = "R163" ∧ soundexCode "Rupert" = "R163" ∧ soundexCode "" = "" := by
  refine ⟨fun w => ?_, by decide, by decide, rfl⟩
  cases h : toUpperAlpha w with
  | nil => exact Or.inl (by simp [soundexCode, h])
  | cons c rest =>
    refine Or.inr ?_
    have hge : 1 ≤ (soundexLoop rest [c] (soundexDigit c)).length := by
      simpa using soundexLoop_length_ge rest [c] (soundexDigit c)
    have hlen : (((soundexLoop rest [c] (soundexDigit c)) ++ ['0', '0', '0']).take 4).length = 4 := by
      rw [List.length_take, List.length_append]
      simp only [List.length_cons, List.length_nil]
      omega
    simp only [soundexCode, h]
    exact hlen

/-- C8 (confirmed): both slots of `createReviewSchedule t` start
uncompleted; the oneDay slot is due exactly at a local midnight (the
timestamp is 0 modulo a day on the local clock) and lies on the calendar
day right after `t`; the oneWeek slot is the local midnight of the day 7
calendar days after `t`.  The local clock is a fixed UTC offset `tz`. -/
theorem createReviewSchedule_local_midnights (tz t : Int) :
    ((createReviewSchedule tz t).oneDay.date + tz) % ONE_DAY_MS = 0 ∧
    localDay tz ((createReviewSchedule tz t).oneDay.date) = localDay tz t + 1 ∧
    (createReviewSchedule tz t).oneDay.completed = false ∧
    ((createReviewSchedule tz t).oneWeek.date + tz) % ONE_DAY_MS = 0 ∧
    localDay tz ((createReviewSchedule tz t).oneWeek.date) = localDay tz t + 7 ∧
    (createReviewSchedule tz t).oneWeek.completed = false := by
  have hD : ONE_DAY_MS ≠ 0 := by norm_num [ONE_DAY_MS]
  have key : ∀ n : ℤ, (startOfLocalDay tz n + tz) % ONE_DAY_MS = 0 ∧
      localDay tz (startOfLocalDay tz n) = n := by
    intro n
    constructor
    · rw [startOfLocalDay, sub_add_cancel]
      exact Int.mul_emod_left n ONE_DAY_MS
    · rw [localDay, startOfLocalDay, sub_add_cancel]
      exact Int.mul_fdiv_cancel n hD
  exact ⟨(key _).1, (key _).2, rfl, (key _).1, (key _).2, rfl⟩

/-- C9 (confirmed): when the provider call throws (network error, non-OK
response, missing API key) `checkTranslation` returns the degraded fallback
with score -1, isCorrect true and empty errors, suggestions and reference;
when the provider responds but the response holds no parsable judgment, the
parse fallback flows through the post-processing unchanged, with the same
score -1, isCorrect true and empty fields. -/
theorem checkTranslation_fallback (user provider : String) :
    ((checkTranslation user .failure provider).score = -1 ∧
     (checkTranslation user .failure provider).isCorrect = true ∧
     (checkTranslation user .failure provider).grammarErrors = [] ∧
     (checkTranslation user .failure provider).suggestions = [] ∧
     (checkTranslation user .failure provider).referenceTranslation = "") ∧
    ((checkTranslation user (.success parseFailureResult) provider).score = -1 ∧
     (checkTranslation user (.success parseFailureResult) provider).isCorrect = true ∧
     (checkTranslation user (.success parseFailureResult) provider).grammarErrors = [] ∧
     (checkTranslation user (.success parseFailureResult) provider).suggestions = [] ∧
     (checkTranslation user (.success parseFailureResult) provider).referenceTranslation = "") := by
  exact ⟨⟨rfl, rfl, rfl, rfl, rfl⟩, ⟨rfl, rfl, rfl, rfl, rfl⟩⟩

/-- C10 (confirmed): when the topic has no stored entry, or its stored
entry has a null review schedule, `markReviewCompleted` returns the
aggregate unchanged (no lazy topic creation, no lastUpdated bump); when a
schedule exists, the named slot of the topic's schedule is set to
completed. -/
theorem markReviewCompleted_guard (p : LearningProgress) (topicId : String) (rt : ReviewType)
    (now : Int) :
    ((lookupTopic p.topics topicId).bind TopicProgress.reviewSchedule = none →
      markReviewCompleted p topicId rt now = p) ∧
    (∀ tp sched, lookupTopic p.topics topicId = some tp → tp.reviewSchedule = some sched →
      ∃ tp₂ sched₂,
        lookupTopic (markReviewCompleted p topicId rt now).topics topicId = some tp₂ ∧
        tp₂.reviewSchedule = some sched₂ ∧ (sched₂.slot rt).completed = true) := by
  cases hlook : lookupTopic p.topics topicId with
  | none =>
    constructor
    · intro _
      unfold markReviewCompleted
      rw [hlook]
    · intro tp sched htp _
      exact absurd htp (by simp)
  | some tp =>
    cases hsched : tp.reviewSchedule with
    | none =>
      constructor
      · intro _
        unfold markReviewCompleted
        simp only [hlook, hsched]
      · intro tp₂ sched₂ htp hs
        have : tp₂ = tp := by injection htp.symm
        rw [this, hsched] at hs
        exact absurd hs (by simp)
    | some sched =>
      constructor
      · intro hnone
        simp [hsched] at hnone
      · intro tp₂ sched₂ htp hs
        have hred : markReviewCompleted p topicId rt now
            = { p with
                topics := setTopic p.topics topicId
                  { tp with reviewSchedule := some (match rt with
                    | .oneDay => { sched with oneDay := { sched.oneDay with completed := true } }
                    | .oneWeek => { sched with oneWeek := { sched.oneWeek with completed := true } }) }
                lastUpdated := now } := by
          unfold markReviewCompleted
          simp only [hlook, hsched]
        rw [hred]
        refine ⟨_, _, lookupTopic_setTopic_self _ _ _, rfl, ?_⟩
        cases rt <;> simp [ReviewSchedule.slot]

/-- C10 (witness): on the empty aggregate, marking a review completed for
an unknown topic is a no-op. -/
theorem markReviewCompleted_guard_witness :
    markReviewCompleted ⟨1, [], 0, []⟩ "t" .oneDay 5 = ⟨1, [], 0, []⟩ :=
  (markReviewCompleted_guard ⟨1, [], 0, []⟩ "t" .oneDay 5).1 rfl

/-- C2 (counterexample): for a topic whose oneDay and oneWeek slots are
both due, `getDueReviews` returns a single entry (the oneDay one) for the
topic, not one entry per due slot as the claim states — the oneWeek entry
is absent. -/
theorem getDueReviews_both_due_counterexample :
    (isReviewDue bothDueTopic.reviewSchedule 10).oneDay = true ∧
    (isReviewDue bothDueTopic.reviewSchedule 10).oneWeek = true ∧
    getDueReviews bothDueProgress 10 = [{ topicId := "t", reviewType := .oneDay }] ∧
    ({ topicId := "t", reviewType := .oneWeek } : DueReview) ∉ getDueReviews bothDueProgress 10 := by
  exact ⟨by decide, by decide, by decide, by decide⟩

/-- C2 (amended): `getDueReviews` returns at most one entry per topic, in
topic order: the oneDay entry when that slot is due, otherwise the oneWeek
entry when that slot is due, otherwise nothing — so a topic with both slots
due contributes only its oneDay entry, and the result never has more
entries than there are topics. -/
theorem getDueReviews_one_entry_per_topic (p : LearningProgress) (now : Int) :
    getDueReviews p now = p.topics.filterMap (dueEntry? now) ∧
    (getDueReviews p now).length ≤ p.topics.length := by
  have h := getDueReviews_foldl now p.topics []
  have he : getDueReviews p now = p.topics.filterMap (dueEntry? now) := by
    simpa [getDueReviews] using h
  exact ⟨he, by rw [he]; exact List.length_filterMap_le _ _⟩

/-- C5 (counterexample): the dismissal keys are cleared by the string
prefix `topicId + "-"`, so re-scheduling topic "a" also removes the key
"a-b-oneDay", which belongs to the different topic "a-b" — the claim that
only topic t's keys are removed fails. -/
theorem scheduleReview_prefix_collision_counterexample :
    "a-b-oneDay" ∈ prefixCollisionProgress.dismissedReviewAlerts ∧
    (∃ tp, lookupTopic prefixCollisionProgress.topics "a-b" = some tp) ∧
    (scheduleReview prefixCollisionProgress "a" 5 0).dismissedReviewAlerts = [] := by
  exact ⟨by decide, ⟨createInitialTopicProgress "a-b", by decide⟩, by decide⟩

/-- C5 (amended): `scheduleReview t` stores a brand-new schedule computed
from now for topic t and leaves every other topic's progress entry
unchanged; it removes exactly the dismissal keys that start with the string
`t + "-"` — all of t's own keys, but also any key of another topic whose id
extends t followed by a hyphen. -/
theorem scheduleReview_spec (p : LearningProgress) (topicId : String) (now tz : Int) :
    (∃ tp', lookupTopic (scheduleReview p topicId now tz).topics topicId = some tp' ∧
      tp'.reviewSchedule = some (createReviewSchedule tz now)) ∧
    (∀ u, u ≠ topicId →
      lookupTopic (scheduleReview p topicId now tz).topics u = lookupTopic p.topics u) ∧
    (∀ key, key ∈ (scheduleReview p topicId now tz).dismissedReviewAlerts ↔
      (key ∈ p.dismissedReviewAlerts ∧ strStartsWith key (topicId ++ "-") = false)) := by
  refine ⟨⟨_, lookupTopic_setTopic_self _ _ _, rfl⟩,
    fun u hu => lookupTopic_setTopic_other _ _ _ _ hu, fun key => ?_⟩
  show key ∈ p.dismissedReviewAlerts.filter (fun k => !(strStartsWith k (topicId ++ "-"))) ↔ _
  rw [List.mem_filter]
  simp

/-- C5 (witness): the frame part of the amended claim at a concrete state:
scheduling topic "t" on the empty aggregate does not touch the (absent)
entry of topic "x". -/
theorem scheduleReview_spec_witness :
    ("x" : String) ≠ "t" ∧
    lookupTopic (scheduleReview ⟨1, [], 0, []⟩ "t" 5 0).topics "x"
      = lookupTopic (⟨1, [], 0, []⟩ : LearningProgress).topics "x" :=
  ⟨by decide, (scheduleReview_spec ⟨1, [], 0, []⟩ "t" 5 0).2.1 "x" (by decide)⟩

/-- C6 (confirmed): `recordQuizAttempt` appends exactly one attempt with
score round(100 correct/total), which lies in 0..100 whenever
0 < total and correct ≤ total; earlier attempts are preserved unchanged as
a prefix; bestScore folds with max (or starts at the new score); completedAt
is kept when already set and initialized to now otherwise; the review
schedule is created exactly on the first-ever completion and left unchanged
afterwards. -/
theorem recordQuizAttempt_spec (p : LearningProgress) (topicId : String) (correct total : Nat)
    (now tz : Int) (ht : 0 < total) (hc : correct ≤ total) :
    ∃ tp',
      lookupTopic (recordQuizAttempt p topicId correct total now tz).topics topicId = some tp' ∧
      tp'.quizAttempts
        = ((lookupTopic p.topics topicId).getD (createInitialTopicProgress topicId)).quizAttempts
          ++ [{ date := now, score := jsRound ((correct : ℚ) / (total : ℚ) * 100),
                correct := correct, total := total }] ∧
      0 ≤ jsRound ((correct : ℚ) / (total : ℚ) * 100) ∧
      jsRound ((correct : ℚ) / (total : ℚ) * 100) ≤ 100 ∧
      tp'.bestScore = some (match ((lookupTopic p.topics topicId).getD
          (createInitialTopicProgress topicId)).bestScore with
        | none => jsRound ((correct : ℚ) / (total : ℚ) * 100)
        | some b => max b (jsRound ((correct : ℚ) / (total : ℚ) * 100))) ∧
      tp'.completedAt = some (((lookupTopic p.topics topicId).getD
          (createInitialTopicProgress topicId)).completedAt.getD now) ∧
      (((lookupTopic p.topics topicId).getD (createInitialTopicProgress topicId)).completedAt = none
        → tp'.reviewSchedule = some (createReviewSchedule tz now)) ∧
      (∀ x, ((lookupTopic p.topics topicId).getD
          (createInitialTopicProgress topicId)).completedAt = some x
        → tp'.reviewSchedule = ((lookupTopic p.topics topicId).getD
            (createInitialTopicProgress topicId)).reviewSchedule) := by
  obtain ⟨h0, h100⟩ := jsRound_bounds correct total ht hc
  refine ⟨_, lookupTopic_setTopic_self _ _ _, rfl, h0, h100, rfl, rfl, ?_, ?_⟩
  · intro hnone
    simp [hnone]
  · intro x hx
    simp [hx]

/-- C6 (witness): recording a 1-of-2 attempt for a fresh topic on the empty
aggregate creates the entry with the new attempt and completion time. -/
theorem recordQuizAttempt_spec_witness :
    ∃ tp', lookupTopic (recordQuizAttempt ⟨1, [], 0, []⟩ "t" 1 2 5 0).topics "t" = some tp' ∧
      tp'.completedAt = some 5 := by
  obtain ⟨tp', h1, _, _, _, _, h6, _, _⟩ :=
    recordQuizAttempt_spec ⟨1, [], 0, []⟩ "t" 1 2 5 0 (by decide) (by decide)
  exact ⟨tp', h1, h6⟩

/-- C7 (confirmed): over a non-empty item list, recording one answer and
advancing once per item completes the session with score
(number of correct answers, item count); resetting afterwards yields an
incomplete session at index 0 with no results, whose score is recomputed as
(0, item count) rather than cached. -/
theorem useTopicQuiz_session {α : Type} (items : List α) (rand rand2 : Nat → Nat)
    (answers : List (String × Bool)) (hne : items ≠ []) (hlen : answers.length = items.length) :
    TopicQuiz.isComplete (TopicQuiz.runQuiz (TopicQuiz.initQuiz items rand) answers) = true ∧
    TopicQuiz.score (TopicQuiz.runQuiz (TopicQuiz.initQuiz items rand) answers)
      = ((answers.filter (fun a => a.2)).length, items.length) ∧
    TopicQuiz.isComplete (TopicQuiz.resetQuiz items rand2
      (TopicQuiz.runQuiz (TopicQuiz.initQuiz items rand) answers)) = false ∧
    (TopicQuiz.resetQuiz items rand2
      (TopicQuiz.runQuiz (TopicQuiz.initQuiz items rand) answers)).currentIndex = 0 ∧
    (TopicQuiz.resetQuiz items rand2
      (TopicQuiz.runQuiz (TopicQuiz.initQuiz items rand) answers)).results = [] ∧
    TopicQuiz.score (TopicQuiz.resetQuiz items rand2
      (TopicQuiz.runQuiz (TopicQuiz.initQuiz items rand) answers))
      = (0, items.length) := by
  have hl : (TopicQuiz.shuffleArray items rand).length = items.length := shuffleArray_length items rand
  have hl2 : (TopicQuiz.shuffleArray items rand2).length = items.length :=
    shuffleArray_length items rand2
  have hpos : 0 < items.length := List.length_pos.mpr hne
  have hbound : 0 + answers.length ≤ (TopicQuiz.shuffleArray items rand).length := by
    rw [hl, hlen]
    omega
  obtain ⟨e1, e2, e3⟩ := runQuiz_go (TopicQuiz.shuffleArray items rand) answers 0 [] hbound
  have hinit : TopicQuiz.initQuiz items rand
      = (⟨TopicQuiz.shuffleArray items rand, 0, []⟩ : TopicQuiz.QuizState α) := rfl
  rw [hinit]
  have hfl : (((TopicQuiz.runQuiz
        (⟨TopicQuiz.shuffleArray items rand, 0, []⟩ : TopicQuiz.QuizState α) answers).results.filter
      (fun r => r.isCorrect)).length) = (answers.filter (fun a => a.2)).length := by
    have h := congrArg (fun l => (l.filter (fun x : String × Bool => x.2)).length) e3
    simpa [List.filter_map, Function.comp] using h
  refine ⟨?_, ?_, ?_, rfl, rfl, ?_⟩
  · simp [TopicQuiz.isComplete, e1, e2, hl, hlen]
  · simp [TopicQuiz.score, e1, hl, hfl]
  · simp only [TopicQuiz.resetQuiz, TopicQuiz.isComplete]
    simp only [hl2]
    simp only [decide_eq_false_iff_not]
    omega
  · simp [TopicQuiz.resetQuiz, TopicQuiz.score, hl2]

/-- C7 (witness): a one-item session answered correctly once. -/
theorem useTopicQuiz_session_witness :
    TopicQuiz.isComplete (TopicQuiz.runQuiz
      (TopicQuiz.initQuiz ["a"] (fun _ => 0)) [("x", true)]) = true ∧
    TopicQuiz.score (TopicQuiz.runQuiz (TopicQuiz.initQuiz ["a"] (fun _ => 0)) [("x", true)])
      = ((([("x", true)] : List (String × Bool)).filter (fun a => a.2)).length,
         (["a"] : List String).length) :=
  ⟨(useTopicQuiz_session ["a"] (fun _ => 0) (fun _ => 0) [("x", true)]
      (by decide) (by decide)).1,
   (useTopicQuiz_session ["a"] (fun _ => 0) (fun _ => 0) [("x", true)]
      (by decide) (by decide)).2.1⟩

/-- C3 (counterexample): the similarity boosts are skipped whenever the
post-filtering score is already at or above the branch threshold: for a
result scored 92 whose reference translation is identical to the user text
(similarity 100), the final score stays 92 — below the 95 floor the claim
promises — and isCorrect is left untouched. -/
theorem correctScoreIfSimilar_high_score_counterexample :
    calculateSimilarity "hello world" highScoreResult.referenceTranslation = 100 ∧
    (correctScoreIfSimilar "hello world" highScoreResult).score = 92 ∧
    ¬((92 : ℚ) ≥ 95) ∧
    (correctScoreIfSimilar "hello world" highScoreResult).isCorrect = false := by
  have hsim : calculateSimilarity "hello world" highScoreResult.referenceTranslation = 100 := by
    have h : calculateSimilarity "hello world" highScoreResult.referenceTranslation
        = jsRound (((2 : ℕ) : ℚ) / ((2 : ℕ) : ℚ) * 100) := rfl
    rw [h]
    norm_num [jsRound]
  have hpre : preSimilarityResult "hello world" highScoreResult = highScoreResult := rfl
  have hres : correctScoreIfSimilar "hello world" highScoreResult = highScoreResult := by
    simp only [correctScoreIfSimilar, hpre]
    rw [hsim, show highScoreResult.score = (92 : ℚ) from rfl]
    rw [if_neg (by decide : ¬(highScoreResult.referenceTranslation = ""))]
    rw [if_neg (by norm_num : ¬((100 : ℤ) ≥ 90 ∧ (92 : ℚ) < 90))]
    rw [if_neg (by norm_num : ¬((100 : ℤ) ≥ 80 ∧ (92 : ℚ) < 80))]
  refine ⟨hsim, ?_, by norm_num, ?_⟩
  · rw [hres]
    rfl
  · rw [hres]
    rfl

/-- C3 (amended): the similarity boosts are conditional on the
post-filtering score being below the threshold: when the reference is
non-empty, similarity at least 90 and filtered score below 90 force a final
score of at least 95 with errors and suggestions cleared and isCorrect set;
similarity at least 80 and filtered score below 80 force a final score of
at least 85 with isCorrect set.  A filtered score already at or above the
threshold is returned without the boost. -/
theorem correctScoreIfSimilar_conditional_boost (user : String) (r : TranslationCheckResult) :
    (r.referenceTranslation ≠ "" →
      calculateSimilarity user r.referenceTranslation ≥ 90 →
      (preSimilarityResult user r).score < 90 →
      ((correctScoreIfSimilar user r).score ≥ 95 ∧
       (correctScoreIfSimilar user r).grammarErrors = [] ∧
       (correctScoreIfSimilar user r).suggestions = [] ∧
       (correctScoreIfSimilar user r).isCorrect = true)) ∧
    (r.referenceTranslation ≠ "" →
      calculateSimilarity user r.referenceTranslation ≥ 80 →
      (preSimilarityResult user r).score < 80 →
      ((correctScoreIfSimilar user r).score ≥ 85 ∧
       (correctScoreIfSimilar user r).isCorrect = true)) := by
  constructor
  · intro href h90 hlt
    have hres : correctScoreIfSimilar user r
        = { preSimilarityResult user r with
            score := max (preSimilarityResult user r).score 95
            isCorrect := true
            feedback := "Excellent! Your translation matches the reference very closely."
            suggestions := []
            grammarErrors := []
            grammarCorrect := true } := by
      simp only [correctScoreIfSimilar]
      rw [if_neg href, if_pos ⟨h90, hlt⟩]
    rw [hres]
    exact ⟨le_max_right _ _, rfl, rfl, rfl⟩
  · intro href h80 hlt80
    simp only [correctScoreIfSimilar]
    rw [if_neg href]
    by_cases hcond : calculateSimilarity user r.referenceTranslation ≥ 90 ∧
        (preSimilarityResult user r).score < 90
    · rw [if_pos hcond]
      exact ⟨le_trans (by norm_num) (le_max_right _ _), rfl⟩
    · rw [if_neg hcond, if_pos ⟨h80, hlt80⟩]
      exact ⟨le_max_right _ _, rfl⟩

/-- C3 (witness): a result scored 40 whose reference equals the user text
is boosted to at least 95 with cleared feedback lists. -/
theorem correctScoreIfSimilar_conditional_boost_witness :
    (correctScoreIfSimilar "hello world" lowScoreResult).score ≥ 95 ∧
    (correctScoreIfSimilar "hello world" lowScoreResult).grammarErrors = [] ∧
    (correctScoreIfSimilar "hello world" lowScoreResult).suggestions = [] ∧
    (correctScoreIfSimilar "hello world" lowScoreResult).isCorrect = true := by
  have hsim : calculateSimilarity "hello world" lowScoreResult.referenceTranslation = 100 := by
    have h : calculateSimilarity "hello world" lowScoreResult.referenceTranslation
        = jsRound (((2 : ℕ) : ℚ) / ((2 : ℕ) : ℚ) * 100) := rfl
    rw [h]
    norm_num [jsRound]
  refine (correctScoreIfSimilar_conditional_boost "hello world" lowScoreResult).1
    (by decide) (by rw [hsim]; norm_num) ?_
  rw [show (preSimilarityResult "hello world" lowScoreResult).score = (40 : ℚ) from rfl]
  norm_num
